import Mathlib

/-!
Verification of the WSJF scoring and ranking backend.

This file gives a shallow embedding of the backend's data model and the
operations of its services, translated from the Python sources:

* `app/models/wsjf_item.py` — the `WSJFSubValues` aggregate, the
  `FIBONACCI_VALUES` scale, the pydantic field validators, the `WSJFItem`
  entity with its computed `wsjf_score`, the `WSJFItemUpdate` patch model
  and the `WSJFItemBatch` size validator;
* `app/services/wsjf_service.py` — `_add_priorities` (stable descending
  sort by score plus 1-based priorities), `update_item` (partial patch)
  and `delete_item`;
* `app/services/pi_service.py` — `get_pi_stats` (aggregation over the
  `wsjf_items` rows of one program increment);
* `app/api/endpoints.py` — the DELETE /items/id endpoint branch.

Python `float` arithmetic on these small ratios is modelled by exact
rational arithmetic; `round(x, 2)` is modelled by round-half-to-even at
two decimals (`round2` below), which is Python's documented behaviour.
Python's `sorted` is modelled by `List.insertionSort`, which realises the
same stable-sort contract.  Machine integers are modelled by `Int`;
UUIDs and timestamps are opaque to all the verified logic and are
modelled by `String` and `Int` respectively.
-/

namespace BsdWsjf

/-- UUIDs are opaque identifiers to every operation modelled here. -/
abbrev UUID := String

/-- Fibonacci values for job size estimation (`FIBONACCI_VALUES` in
`wsjf_item.py`). -/
def FIBONACCI_VALUES : List Int := [1, 2, 3, 5, 8, 13, 21]

/-- `WSJFSubValues`: the 12-key bag of optional factor contributions
(`wsjf_item.py`, lines 10-22).  Every field is `int | None` defaulting
to `None`. -/
structure WSJFSubValues where
  pms_business : Option Int := none
  pos_business : Option Int := none
  bos_agri_business : Option Int := none
  bos_cabinet_business : Option Int := none
  consultants_business : Option Int := none
  dev_business : Option Int := none
  dev_technical : Option Int := none
  ia_business : Option Int := none
  ia_technical : Option Int := none
  devops_business : Option Int := none
  devops_technical : Option Int := none
  support_business : Option Int := none
deriving DecidableEq, Repr

namespace WSJFSubValues

/-- The field values in declaration order, as `self.model_dump().values()`
lists them. -/
def subValues (s : WSJFSubValues) : List (Option Int) :=
  [s.pms_business, s.pos_business, s.bos_agri_business, s.bos_cabinet_business,
   s.consultants_business, s.dev_business, s.dev_technical, s.ia_business,
   s.ia_technical, s.devops_business, s.devops_technical, s.support_business]

/-- `[v for v in self.model_dump().values() if v is not None]`. -/
def presentValues (s : WSJFSubValues) : List Int :=
  s.subValues.filterMap id

/-- `calculate_max_value`: `max(values) if values else 0`
(`wsjf_item.py`, lines 24-27). -/
def calculate_max_value (s : WSJFSubValues) : Int :=
  match s.presentValues with
  | [] => 0
  | v :: vs => vs.foldl max v

end WSJFSubValues

/-- Error message of the `validate_fibonacci_values` field validator. -/
def fibValuesErr : String := "Values must be one of FIBONACCI_VALUES"

/-- `validate_fibonacci_values` (`wsjf_item.py`, lines 29-35): raise a
`ValueError` when the value is present and not in `FIBONACCI_VALUES`,
return the value unchanged otherwise. -/
def validate_fibonacci_values (v : Option Int) : Except String (Option Int) :=
  match v with
  | none => .ok none
  | some x => if x ∈ FIBONACCI_VALUES then .ok (some x) else .error fibValuesErr

/-- `WSJFStatus` (`status.py`): the New / Go / No Go decision gate. -/
inductive WSJFStatus where
  | new
  | go
  | noGo
deriving DecidableEq, Repr

/-- The string value of each status member. -/
def WSJFStatus.value : WSJFStatus → String
  | .new => "New"
  | .go => "Go"
  | .noGo => "No Go"

/-- `WSJFItem` (`wsjf_item.py`, lines 42-64 and 155-159): the entity with
its three numerator aggregates, scalar `job_size`, workflow metadata and
identity fields. -/
structure WSJFItem where
  id : UUID
  subject : String
  description : String
  business_value : WSJFSubValues
  time_criticality : WSJFSubValues
  risk_reduction : WSJFSubValues
  job_size : Int
  status : WSJFStatus
  owner : Option String
  team : Option String
  program_increment_id : UUID
  created_date : Int
deriving DecidableEq, Repr

/-- Python's round-to-integer with ties to even, on exact rationals. -/
def pyRoundHalfEven (q : ℚ) : Int :=
  if q - (⌊q⌋ : ℚ) < 1/2 then ⌊q⌋
  else if 1/2 < q - (⌊q⌋ : ℚ) then ⌊q⌋ + 1
  else if ⌊q⌋ % 2 = 0 then ⌊q⌋ else ⌊q⌋ + 1

/-- Python's `round(x, 2)`: the closest multiple of 1/100, ties to even. -/
def round2 (q : ℚ) : ℚ :=
  (pyRoundHalfEven (q * 100) : ℚ) / 100

/-- `WSJFItem.wsjf_score` (`wsjf_item.py`, lines 161-177):
`round((business_score + time_score + risk_score) / job_size, 2)` where
each score is the aggregate's `calculate_max_value()`. -/
def WSJFItem.wsjf_score (item : WSJFItem) : ℚ :=
  let business_score := item.business_value.calculate_max_value
  let time_score := item.time_criticality.calculate_max_value
  let risk_score := item.risk_reduction.calculate_max_value
  round2 (((business_score + time_score + risk_score : Int) : ℚ) / (item.job_size : ℚ))

/-- The per-field check the `validate_fibonacci_values` wildcard validator
performs over a whole `WSJFSubValues` payload at construction: every
present value must be a Fibonacci value. -/
def WSJFSubValues.allFibonacci (s : WSJFSubValues) : Bool :=
  s.presentValues.all fun v => decide (v ∈ FIBONACCI_VALUES)

/-- `validate_job_size_fibonacci` (`wsjf_item.py`, lines 84-100): raise a
`ValueError` when the job size is not in `FIBONACCI_VALUES`, return it
unchanged otherwise. -/
def validate_job_size_fibonacci (v : Int) : Except String Int :=
  if v ∈ FIBONACCI_VALUES then .ok v else .error "Job size must be one of FIBONACCI_VALUES"

/-- `validate_at_least_one_value` (`wsjf_item.py`, lines 66-82): raise a
`ValueError` when `calculate_max_value()` is 0, return the aggregate
unchanged otherwise. -/
def validate_at_least_one_value (v : WSJFSubValues) : Except String WSJFSubValues :=
  if v.calculate_max_value = 0 then .error "At least one sub-value must be set"
  else .ok v

/-- The `Field(..., min_length=1, max_length=200)` constraint on
`subject`. -/
def checkSubject (s : String) : Except String String :=
  if 1 ≤ s.length ∧ s.length ≤ 200 then .ok s
  else .error "subject must be 1 to 200 characters"

/-- The `Field("", max_length=1000)` constraint on `description`. -/
def checkDescription (s : String) : Except String String :=
  if s.length ≤ 1000 then .ok s
  else .error "description must be at most 1000 characters"

/-- The `validate_fibonacci_values` wildcard validator run over a whole
`WSJFSubValues` payload when pydantic constructs the nested model. -/
def checkSubValuesFib (s : WSJFSubValues) : Except String WSJFSubValues :=
  if s.allFibonacci then .ok s else .error fibValuesErr

/-- The `Field(None, max_length=100)` constraint on `owner` and `team`. -/
def checkOptionalName (o : Option String) : Except String (Option String) :=
  match o with
  | none => .ok none
  | some s => if s.length ≤ 100 then .ok (some s)
              else .error "must be at most 100 characters"

/-- Construction of a validated `WSJFItem`, mirroring pydantic's parse of
`WSJFItemBase` input (`wsjf_item.py`, lines 42-100): the `Field`
constraints on `subject`, `description`, `owner` and `team`, the nested
`validate_fibonacci_values` check inside each `WSJFSubValues` payload,
`validate_at_least_one_value` on the three numerator aggregates, and
`validate_job_size_fibonacci` on `job_size`.  `id` and `created_date`
are the generated identity fields of `WSJFItem`. -/
def mkWSJFItem (id : UUID) (subject description : String)
    (bv tc rr : WSJFSubValues) (job_size : Int) (status : WSJFStatus)
    (owner team : Option String) (pi : UUID) (created_date : Int) :
    Except String WSJFItem := do
  let subject ← checkSubject subject
  let description ← checkDescription description
  let bv ← checkSubValuesFib bv
  let bv ← validate_at_least_one_value bv
  let tc ← checkSubValuesFib tc
  let tc ← validate_at_least_one_value tc
  let rr ← checkSubValuesFib rr
  let rr ← validate_at_least_one_value rr
  let job_size ← validate_job_size_fibonacci job_size
  let owner ← checkOptionalName owner
  let team ← checkOptionalName team
  pure ⟨id, subject, description, bv, tc, rr, job_size, status, owner, team, pi, created_date⟩

/-- `WSJFItemBatch.validate_items_not_empty` (`wsjf_item.py`, lines
190-208): a batch must contain between 1 and 100 items. -/
def validate_items_not_empty (v : List WSJFItem) : Except String (List WSJFItem) :=
  if v.length = 0 then .error "At least one item is required"
  else if v.length > 100 then .error "Maximum 100 items allowed per batch"
  else .ok v

/-! ### Ranking (`wsjf_service.py`, `_add_priorities`, lines 384-401) -/

/-- The descending-score order used by
`sorted(items, key=lambda x: x.wsjf_score, reverse=True)`:
`a` may come before `b` when `b`'s score is at most `a`'s. -/
def scoreGE (a b : WSJFItem) : Prop := b.wsjf_score ≤ a.wsjf_score

instance : DecidableRel scoreGE := fun a b =>
  inferInstanceAs (Decidable (b.wsjf_score ≤ a.wsjf_score))

instance : IsTotal WSJFItem scoreGE :=
  ⟨fun a b => (le_total b.wsjf_score a.wsjf_score).imp id id⟩

instance : IsTrans WSJFItem scoreGE :=
  ⟨fun _ _ _ hab hbc => le_trans hbc hab⟩

/-- `sorted(items, key=lambda x: x.wsjf_score, reverse=True)`: Python's
stable sort, descending by score.  `List.insertionSort` with `scoreGE`
realises exactly the stable-sort contract (permutation, sortedness, and
preservation of the input order of equal-score items), which determines
the output uniquely. -/
def sortByScoreDesc (items : List WSJFItem) : List WSJFItem :=
  items.insertionSort scoreGE

/-- `_add_priorities` (`wsjf_service.py`, lines 384-401): sort by score
descending, then pair each item with `i + 1` for its 0-based sort
position `i`. -/
def add_priorities (items : List WSJFItem) : List (WSJFItem × Nat) :=
  (sortByScoreDesc items).enum.map fun p => (p.2, p.1 + 1)

/-! ### Partial update (`wsjf_service.py`, `update_item`, lines 105-157;
`wsjf_item.py`, `WSJFItemUpdate`, lines 122-152) -/

/-- `WSJFItemUpdate` with pydantic's per-field "was this field provided"
tracking (`model_dump(exclude_unset=True)`): the outer `Option` is
`none` when the field was omitted from the patch.  For the nullable
columns `owner` and `team` the inner `Option` distinguishes an explicit
null from a string value. -/
structure WSJFItemUpdate where
  subject : Option String := none
  description : Option String := none
  business_value : Option WSJFSubValues := none
  time_criticality : Option WSJFSubValues := none
  risk_reduction : Option WSJFSubValues := none
  job_size : Option Int := none
  status : Option WSJFStatus := none
  owner : Option (Option String) := none
  team : Option (Option String) := none
  program_increment_id : Option UUID := none
deriving DecidableEq, Repr

/-- The patch with every field unset: `WSJFItemUpdate()`. -/
def WSJFItemUpdate.empty : WSJFItemUpdate := {}

/-- The net effect of `update_item` on the stored record (`wsjf_service.py`,
lines 121-157): every field present in `model_dump(exclude_unset=True)`
is written by the generated `UPDATE ... SET` clause, every other column
is untouched; `id` and `created_date` are not part of the update model.
An update on an all-unset patch returns the existing item without
touching the store (lines 123-124); the record effect is the same. -/
def apply_update (item : WSJFItem) (patch : WSJFItemUpdate) : WSJFItem :=
  { item with
    subject := patch.subject.getD item.subject
    description := patch.description.getD item.description
    business_value := patch.business_value.getD item.business_value
    time_criticality := patch.time_criticality.getD item.time_criticality
    risk_reduction := patch.risk_reduction.getD item.risk_reduction
    job_size := patch.job_size.getD item.job_size
    status := patch.status.getD item.status
    owner := patch.owner.getD item.owner
    team := patch.team.getD item.team
    program_increment_id := patch.program_increment_id.getD item.program_increment_id }

/-! ### Deletion (`wsjf_service.py`, `delete_item`, lines 159-171;
`endpoints.py`, `delete_item`, lines 88-100) -/

/-- `delete_item`: run `DELETE FROM wsjf_items WHERE id = ...` against the
store and return `True` unconditionally (`wsjf_service.py`, lines
159-171).  The store is modelled as an association list from id to
item. -/
def delete_item (store : List (UUID × WSJFItem)) (item_id : UUID) :
    List (UUID × WSJFItem) × Bool :=
  (store.filter fun p => decide (p.1 ≠ item_id), true)

/-- The DELETE /items/id endpoint (`endpoints.py`, lines 88-100):
404 when `delete_item` returns `False`, 204 otherwise. -/
def delete_item_endpoint (store : List (UUID × WSJFItem)) (item_id : UUID) : Nat :=
  if (delete_item store item_id).2 then 204 else 404

/-! ### PI stats (`pi_service.py`, `get_pi_stats`, lines 163-226) -/

/-- A `wsjf_items` row as the stats SQL of `get_pi_stats` reads it: the
four factor columns are the stored scalars that
`(business_value + time_criticality + risk_reduction) * 1.0 / job_size`
consumes, plus the `status` and nullable `team` columns.  (The table
schema in `app/core/database.py` declares the four factor columns
INTEGER.) -/
structure WsjfItemRow where
  business_value : ℚ
  time_criticality : ℚ
  risk_reduction : ℚ
  job_size : ℚ
  status : String
  team : Option String
deriving DecidableEq, Repr

/-- `ProgramIncrementStats` fields derived from the item rows (the
`pi_id` / `pi_name` echo fields are omitted: they are copied verbatim
from the PI looked up first). -/
structure PIStats where
  total_items : Nat
  avg_wsjf_score : ℚ
  status_distribution : List (String × Nat)
  team_distribution : List (String × Nat)
deriving DecidableEq, Repr

/-- The per-row ratio the stats SQL averages:
`(business_value + time_criticality + risk_reduction) * 1.0 / job_size`. -/
def rowRatio (r : WsjfItemRow) : ℚ :=
  (r.business_value + r.time_criticality + r.risk_reduction) / r.job_size

/-- The team label of a row: `COALESCE(team, 'Unassigned')`. -/
def rowTeamLabel (r : WsjfItemRow) : String := r.team.getD "Unassigned"

/-- `get_pi_stats` (`pi_service.py`, lines 176-226) for an existing PI,
over the rows belonging to it: `COUNT(*)`; `AVG(ratio)` (NULL on an
empty group) post-processed by
`round(stats_result[1], 2) if stats_result and stats_result[1] else 0.0`
(both NULL and 0 are falsy); `GROUP BY status` counts; and
`GROUP BY team` counts labelled through COALESCE. -/
def get_pi_stats (rows : List WsjfItemRow) : PIStats :=
  let total := rows.length
  let avgRaw : Option ℚ :=
    if rows.isEmpty then none else some ((rows.map rowRatio).sum / (total : ℚ))
  let avg : ℚ :=
    match avgRaw with
    | none => 0
    | some v => if v = 0 then 0 else round2 v
  let statuses := (rows.map (·.status)).dedup
  let teams := (rows.map rowTeamLabel).dedup
  { total_items := total
    avg_wsjf_score := avg
    status_distribution :=
      statuses.map fun s => (s, (rows.filter fun r => decide (r.status = s)).length)
    team_distribution :=
      teams.map fun t => (t, (rows.filter fun r => decide (rowTeamLabel r = t)).length) }

/-- The quantity claim C5 asserts for `avg_wsjf_score` (stated from the
spec's words, for comparison with `get_pi_stats`): the mean of the
items' derived `wsjf_score` values, rounded to 2 decimals. -/
def specAvgScore (items : List WSJFItem) : ℚ :=
  round2 ((items.map WSJFItem.wsjf_score).sum / (items.length : ℚ))

/-! ### Helper lemmas -/

lemma le_foldl_max_self (v : Int) (vs : List Int) : v ≤ vs.foldl max v := by
  induction vs generalizing v with
  | nil => exact le_refl v
  | cons a vs ih => exact le_trans (le_max_left v a) (ih (max v a))

lemma foldl_max_mem (v : Int) (vs : List Int) : vs.foldl max v ∈ v :: vs := by
  induction vs generalizing v with
  | nil => simp
  | cons a vs ih =>
    have h := ih (max v a)
    simp only [List.foldl_cons]
    rcases List.mem_cons.mp h with h1 | h2
    · rw [h1]
      rcases max_choice v a with hv | ha
      · rw [hv]; exact List.mem_cons_self _ _
      · rw [ha]; exact List.mem_cons_of_mem _ (List.mem_cons_self _ _)
    · exact List.mem_cons_of_mem _ (List.mem_cons_of_mem _ h2)

lemma le_foldl_max (v : Int) (vs : List Int) : ∀ x ∈ v :: vs, x ≤ vs.foldl max v := by
  induction vs generalizing v with
  | nil => intro x hx; simp at hx; simp [hx]
  | cons a vs ih =>
    intro x hx
    rcases List.mem_cons.mp hx with h1 | h2
    · subst h1
      exact le_trans (le_max_left x a) (ih (max x a) _ (List.mem_cons_self _ _))
    · rcases List.mem_cons.mp h2 with h3 | h4
      · subst h3
        exact le_trans (le_max_right v x) (ih (max v x) _ (List.mem_cons_self _ _))
      · exact ih (max v a) x (List.mem_cons_of_mem _ h4)

lemma calculate_max_value_of_nil {s : WSJFSubValues} (h : s.presentValues = []) :
    s.calculate_max_value = 0 := by
  unfold WSJFSubValues.calculate_max_value
  rw [h]

lemma calculate_max_value_mem {s : WSJFSubValues} (h : s.presentValues ≠ []) :
    s.calculate_max_value ∈ s.presentValues := by
  unfold WSJFSubValues.calculate_max_value
  cases hp : s.presentValues with
  | nil => exact absurd hp h
  | cons v vs => simp only [hp]; exact foldl_max_mem v vs

lemma le_calculate_max_value {s : WSJFSubValues} :
    ∀ v ∈ s.presentValues, v ≤ s.calculate_max_value := by
  intro v hv
  unfold WSJFSubValues.calculate_max_value
  cases hp : s.presentValues with
  | nil => rw [hp] at hv; simp at hv
  | cons w ws => rw [hp] at hv; exact le_foldl_max w ws v hv

lemma fib_values_bounds : ∀ x ∈ FIBONACCI_VALUES, 1 ≤ x ∧ x ≤ 21 := by decide

lemma one_le_max_of_allFibonacci {s : WSJFSubValues}
    (hfib : s.allFibonacci = true) (hnz : s.calculate_max_value ≠ 0) :
    1 ≤ s.calculate_max_value := by
  have hne : s.presentValues ≠ [] := by
    intro h
    exact hnz (calculate_max_value_of_nil h)
  have hmem := calculate_max_value_mem hne
  have : s.calculate_max_value ∈ FIBONACCI_VALUES := by
    have := List.all_eq_true.mp hfib _ hmem
    exact of_decide_eq_true this
  exact (fib_values_bounds _ this).1

lemma floor_le_pyRoundHalfEven (q : ℚ) : ⌊q⌋ ≤ pyRoundHalfEven q := by
  unfold pyRoundHalfEven
  split_ifs <;> omega

lemma round2_pos_of_one_seventh_le {q : ℚ} (h : 1/7 ≤ q) : 0 < round2 q := by
  have h14 : (14 : Int) ≤ ⌊q * 100⌋ := by
    rw [Int.le_floor]
    calc ((14 : Int) : ℚ) = 14 := by norm_num
    _ ≤ (1/7) * 100 := by norm_num
    _ ≤ q * 100 := by
        apply mul_le_mul_of_nonneg_right h
        norm_num
  have hr : (14 : Int) ≤ pyRoundHalfEven (q * 100) :=
    le_trans h14 (floor_le_pyRoundHalfEven (q * 100))
  unfold round2
  apply div_pos _ (by norm_num : (0:ℚ) < 100)
  have h' : (14 : ℚ) ≤ (pyRoundHalfEven (q * 100) : ℚ) := by exact_mod_cast hr
  linarith

lemma filter_orderedInsert_score_eq (x : WSJFItem) (l : List WSJFItem) :
    (l.orderedInsert scoreGE x).filter (fun y => decide (y.wsjf_score = x.wsjf_score)) =
      x :: l.filter (fun y => decide (y.wsjf_score = x.wsjf_score)) := by
  induction l with
  | nil => simp [List.orderedInsert]
  | cons b l ih =>
    by_cases hb : scoreGE x b
    · rw [List.orderedInsert, if_pos hb]
      simp
    · rw [List.orderedInsert, if_neg hb]
      have hbne : ¬ b.wsjf_score = x.wsjf_score := by
        intro he
        exact hb (le_of_eq he)
      rw [List.filter_cons, List.filter_cons]
      simp only [hbne, decide_False]
      exact ih

lemma filter_orderedInsert_score_ne (x : WSJFItem) (l : List WSJFItem) (q : ℚ)
    (hq : q ≠ x.wsjf_score) :
    (l.orderedInsert scoreGE x).filter (fun y => decide (y.wsjf_score = q)) =
      l.filter (fun y => decide (y.wsjf_score = q)) := by
  have hxq : ¬ x.wsjf_score = q := fun h => hq h.symm
  induction l with
  | nil =>
    rw [List.orderedInsert, List.filter_cons]
    simp [hxq]
  | cons b l ih =>
    by_cases hb : scoreGE x b
    · rw [List.orderedInsert, if_pos hb, List.filter_cons]
      simp [hxq]
    · rw [List.orderedInsert, if_neg hb]
      rw [List.filter_cons, List.filter_cons]
      rw [ih]

/-- Stability of the descending sort: for every score value, the
subsequence of items carrying that score is exactly the one of the
input, in input order. -/
lemma sortByScoreDesc_stable (items : List WSJFItem) (q : ℚ) :
    (sortByScoreDesc items).filter (fun y => decide (y.wsjf_score = q)) =
      items.filter (fun y => decide (y.wsjf_score = q)) := by
  induction items with
  | nil => rfl
  | cons a l ih =>
    unfold sortByScoreDesc at *
    rw [List.insertionSort]
    by_cases hq : q = a.wsjf_score
    · subst hq
      rw [filter_orderedInsert_score_eq, ih, List.filter_cons]
      simp
    · rw [filter_orderedInsert_score_ne _ _ _ hq, ih, List.filter_cons]
      have haq : ¬ a.wsjf_score = q := fun h => hq h.symm
      simp [haq]

lemma map_fst_add_priorities (items : List WSJFItem) :
    (add_priorities items).map Prod.fst = sortByScoreDesc items := by
  unfold add_priorities
  rw [List.map_map]
  have : (Prod.fst ∘ fun p : Nat × WSJFItem => (p.2, p.1 + 1)) = Prod.snd := rfl
  rw [this]
  simp

lemma map_snd_add_priorities (items : List WSJFItem) :
    (add_priorities items).map Prod.snd = List.range' 1 items.length := by
  unfold add_priorities
  rw [List.map_map]
  have h1 : (Prod.snd ∘ fun p : Nat × WSJFItem => (p.2, p.1 + 1)) =
      (fun n => n + 1) ∘ Prod.fst := rfl
  rw [h1, ← List.map_map]
  simp only [List.enum_map_fst]
  rw [List.range'_eq_map_range]
  have h2 : (sortByScoreDesc items).length = items.length :=
    (List.perm_insertionSort scoreGE items).length_eq
  rw [h2]
  exact List.map_congr_left fun n _ => Nat.add_comm n 1

/-- The spec's "aggregate's max-of-subvalues", stated independently of the
code's fold: the maximum of the present sub-values via `List.max?`, with
0 as the default for an empty aggregate. -/
def specMaxOfSubvalues (s : WSJFSubValues) : Int :=
  (s.presentValues.max?).getD 0

lemma calculate_max_value_eq_specMax (s : WSJFSubValues) :
    s.calculate_max_value = specMaxOfSubvalues s := by
  unfold WSJFSubValues.calculate_max_value specMaxOfSubvalues
  cases hp : s.presentValues with
  | nil => rfl
  | cons v vs => rfl

/-- Example aggregates and items used by the concrete witnesses below. -/
def aggPms21Dev8 : WSJFSubValues := { pms_business := some 21, dev_business := some 8 }

def aggBusiness5 : WSJFSubValues := { pms_business := some 5 }

def aggTime5 : WSJFSubValues := { consultants_business := some 5 }

def aggRisk3 : WSJFSubValues := { dev_business := some 3 }

def aggEmpty : WSJFSubValues := {}

def sampleItem : WSJFItem :=
  ⟨"id-1", "Item", "", aggBusiness5, aggTime5, aggRisk3, 2, .new, none, none, "pi-1", 0⟩

/-! ### Claim theorems -/

/-- C1: for every WSJF item, the derived `wsjf_score` equals
`round((business_score + time_score + risk_score) / job_size_score, 2)`
where each numerator score is the aggregate's max-of-subvalues and the
job-size score is the scalar `job_size` itself. -/
theorem wsjf_score_eq_round_sum_div_jobsize (item : WSJFItem) :
    item.wsjf_score =
      round2 (((specMaxOfSubvalues item.business_value +
        specMaxOfSubvalues item.time_criticality +
        specMaxOfSubvalues item.risk_reduction : Int) : ℚ) / (item.job_size : ℚ)) := by
  unfold WSJFItem.wsjf_score
  rw [calculate_max_value_eq_specMax, calculate_max_value_eq_specMax,
    calculate_max_value_eq_specMax]

/-- C3: for every sub-value aggregate, `calculate_max_value` returns the
maximum of the present (non-null) sub-values — an upper bound that is
itself a present value — and returns 0 when no sub-values are present. -/
theorem calculate_max_value_is_max_of_present (s : WSJFSubValues) :
    (s.presentValues = [] → s.calculate_max_value = 0) ∧
    (s.presentValues ≠ [] → s.calculate_max_value ∈ s.presentValues) ∧
    (∀ v ∈ s.presentValues, v ≤ s.calculate_max_value) := by
  refine ⟨fun h => calculate_max_value_of_nil h,
    fun h => calculate_max_value_mem h, le_calculate_max_value⟩

/-- Witness for C3: the spec's example aggregate with dev_business 8 and
pms_business 21 has maximum 21, and it is one of the present values. -/
theorem calculate_max_value_is_max_of_present_witness :
    aggPms21Dev8.calculate_max_value = 21 ∧
    aggPms21Dev8.calculate_max_value ∈ aggPms21Dev8.presentValues ∧
    aggEmpty.calculate_max_value = 0 :=
  ⟨by decide,
   (calculate_max_value_is_max_of_present aggPms21Dev8).2.1 (by decide),
   (calculate_max_value_is_max_of_present aggEmpty).1 (by decide)⟩

/-- C7: the Fibonacci validator fails for every integer not in
the set 1,2,3,5,8,13,21, and accepts (returns unchanged) each member of
the set as well as a null/absent input. -/
theorem validate_fibonacci_values_spec :
    (∀ v : Int, v ∉ FIBONACCI_VALUES →
      validate_fibonacci_values (some v) = .error fibValuesErr) ∧
    (∀ v ∈ FIBONACCI_VALUES, validate_fibonacci_values (some v) = .ok (some v)) ∧
    validate_fibonacci_values none = .ok none := by
  refine ⟨fun v hv => ?_, fun v hv => ?_, rfl⟩
  · simp [validate_fibonacci_values, hv]
  · simp [validate_fibonacci_values, hv]

/-- Witness for C7: 4 is rejected, 5 and None are accepted. -/
theorem validate_fibonacci_values_spec_witness :
    validate_fibonacci_values (some 4) = .error fibValuesErr ∧
    validate_fibonacci_values (some 5) = .ok (some 5) ∧
    validate_fibonacci_values none = .ok none :=
  ⟨validate_fibonacci_values_spec.1 4 (by decide),
   validate_fibonacci_values_spec.2.1 5 (by decide),
   validate_fibonacci_values_spec.2.2⟩

/-- C8: batch validation fails for a batch of 0 items and for a batch of
101 items, and accepts the list for a batch of exactly 100 items. -/
theorem batch_size_validation_spec (v : List WSJFItem) :
    (v.length = 0 → validate_items_not_empty v = .error "At least one item is required") ∧
    (v.length = 101 → validate_items_not_empty v = .error "Maximum 100 items allowed per batch") ∧
    (v.length = 100 → validate_items_not_empty v = .ok v) := by
  refine ⟨fun h => ?_, fun h => ?_, fun h => ?_⟩ <;>
    simp [validate_items_not_empty, h]

/-- Witness for C8: the empty batch and a batch of 101 copies fail, a
batch of exactly 100 copies is accepted. -/
theorem batch_size_validation_spec_witness :
    validate_items_not_empty ([] : List WSJFItem) = .error "At least one item is required" ∧
    validate_items_not_empty (List.replicate 101 sampleItem) =
      .error "Maximum 100 items allowed per batch" ∧
    validate_items_not_empty (List.replicate 100 sampleItem) =
      .ok (List.replicate 100 sampleItem) :=
  ⟨(batch_size_validation_spec []).1 rfl,
   (batch_size_validation_spec _).2.1 (by simp),
   (batch_size_validation_spec _).2.2 (by simp)⟩

/-- C10: `delete_item` returns True for every item id, including one with
no stored item, so the DELETE endpoint's not-found branch is unreachable
and deleting a nonexistent item reports 204, never 404. -/
theorem delete_item_always_true (store : List (UUID × WSJFItem)) (item_id : UUID) :
    (delete_item store item_id).2 = true ∧
    delete_item_endpoint store item_id = 204 ∧
    (store.lookup item_id = none → delete_item_endpoint store item_id = 204) := by
  exact ⟨rfl, rfl, fun _ => rfl⟩

/-- Witness for C10: deleting from an empty store (the id certainly does
not exist) still reports 204. -/
theorem delete_item_always_true_witness :
    delete_item_endpoint [] "no-such-id" = 204 :=
  (delete_item_always_true [] "no-such-id").2.2 rfl

lemma except_bind_ok {ε α β : Type} {x : Except ε α} {f : α → Except ε β} {b : β}
    (h : x >>= f = .ok b) : ∃ a, x = .ok a ∧ f a = .ok b := by
  cases x with
  | error e => exact Except.noConfusion h
  | ok a => exact ⟨a, rfl, h⟩

lemma checkSubject_ok {s t : String} (h : checkSubject s = .ok t) : t = s := by
  unfold checkSubject at h
  split_ifs at h
  injection h with h'
  exact h'.symm

lemma checkDescription_ok {s t : String} (h : checkDescription s = .ok t) : t = s := by
  unfold checkDescription at h
  split_ifs at h
  injection h with h'
  exact h'.symm

lemma checkSubValuesFib_ok {s t : WSJFSubValues} (h : checkSubValuesFib s = .ok t) :
    t = s ∧ s.allFibonacci = true := by
  unfold checkSubValuesFib at h
  split_ifs at h with hc
  injection h with h'
  exact ⟨h'.symm, hc⟩

lemma validate_at_least_one_value_ok {v w : WSJFSubValues}
    (h : validate_at_least_one_value v = .ok w) :
    w = v ∧ v.calculate_max_value ≠ 0 := by
  unfold validate_at_least_one_value at h
  split_ifs at h with hc
  injection h with h'
  exact ⟨h'.symm, hc⟩

lemma validate_job_size_fibonacci_ok {v w : Int}
    (h : validate_job_size_fibonacci v = .ok w) :
    w = v ∧ v ∈ FIBONACCI_VALUES := by
  unfold validate_job_size_fibonacci at h
  split_ifs at h with hc
  injection h with h'
  exact ⟨h'.symm, hc⟩

lemma checkOptionalName_ok {o t : Option String} (h : checkOptionalName o = .ok t) :
    t = o := by
  cases o with
  | none => injection h with h'; exact h'.symm
  | some s =>
    replace h : (if s.length ≤ 100 then (Except.ok (some s) : Except String (Option String))
        else Except.error "must be at most 100 characters") = .ok t := h
    split_ifs at h
    injection h with h'
    exact h'.symm

/-- Inversion of a successful `mkWSJFItem`: the returned item is built
verbatim from the inputs and every validator condition held. -/
lemma mkWSJFItem_ok_inversion {id subject description bv tc rr job_size status
    owner team pi cd item}
    (h : mkWSJFItem id subject description bv tc rr job_size status owner team pi cd =
      .ok item) :
    item = ⟨id, subject, description, bv, tc, rr, job_size, status, owner, team, pi, cd⟩ ∧
    bv.allFibonacci = true ∧ bv.calculate_max_value ≠ 0 ∧
    tc.allFibonacci = true ∧ tc.calculate_max_value ≠ 0 ∧
    rr.allFibonacci = true ∧ rr.calculate_max_value ≠ 0 ∧
    job_size ∈ FIBONACCI_VALUES := by
  rw [mkWSJFItem] at h
  obtain ⟨s1, hs1, hr1⟩ := except_bind_ok h
  obtain ⟨d1, hd1, hr2⟩ := except_bind_ok hr1
  obtain ⟨bv1, hbv1, hr3⟩ := except_bind_ok hr2
  obtain ⟨bv2, hbv2, hr4⟩ := except_bind_ok hr3
  obtain ⟨tc1, htc1, hr5⟩ := except_bind_ok hr4
  obtain ⟨tc2, htc2, hr6⟩ := except_bind_ok hr5
  obtain ⟨rr1, hrr1, hr7⟩ := except_bind_ok hr6
  obtain ⟨rr2, hrr2, hr8⟩ := except_bind_ok hr7
  obtain ⟨js1, hjs1, hr9⟩ := except_bind_ok hr8
  obtain ⟨ow1, how1, hr10⟩ := except_bind_ok hr9
  obtain ⟨tm1, htm1, hfin⟩ := except_bind_ok hr10
  obtain rfl := checkSubject_ok hs1
  obtain rfl := checkDescription_ok hd1
  obtain ⟨rfl, hbvF⟩ := checkSubValuesFib_ok hbv1
  obtain ⟨rfl, hbvN⟩ := validate_at_least_one_value_ok hbv2
  obtain ⟨rfl, htcF⟩ := checkSubValuesFib_ok htc1
  obtain ⟨rfl, htcN⟩ := validate_at_least_one_value_ok htc2
  obtain ⟨rfl, hrrF⟩ := checkSubValuesFib_ok hrr1
  obtain ⟨rfl, hrrN⟩ := validate_at_least_one_value_ok hrr2
  obtain ⟨rfl, hjsF⟩ := validate_job_size_fibonacci_ok hjs1
  obtain rfl := checkOptionalName_ok how1
  obtain rfl := checkOptionalName_ok htm1
  injection hfin with h'
  exact ⟨h'.symm, hbvF, hbvN, htcF, htcN, hrrF, hrrN, hjsF⟩

/-- C2: `_add_priorities` returns the items stably sorted by `wsjf_score`
descending with 1-based dense priorities assigned by sort position: the
output items are a permutation of the input, sorted so that scores are
non-increasing; the priorities are exactly 1..N in order (so two items
with equal scores receive different consecutive ranks); for every score
value the items carrying it appear in input relative order; and the
empty input yields an empty output. -/
theorem add_priorities_stable_ranking (items : List WSJFItem) :
    ((add_priorities items).map Prod.fst).Perm items ∧
    List.Sorted scoreGE ((add_priorities items).map Prod.fst) ∧
    (add_priorities items).map Prod.snd = List.range' 1 items.length ∧
    (∀ q : ℚ, ((add_priorities items).map Prod.fst).filter
        (fun y => decide (y.wsjf_score = q)) =
      items.filter (fun y => decide (y.wsjf_score = q))) ∧
    (items = [] → add_priorities items = []) := by
  rw [map_fst_add_priorities]
  refine ⟨List.perm_insertionSort scoreGE items,
    List.sorted_insertionSort scoreGE items,
    map_snd_add_priorities items,
    fun q => sortByScoreDesc_stable items q,
    fun h => by rw [h]; rfl⟩

/-- Witness for C2: ranking the empty list yields the empty list. -/
theorem add_priorities_stable_ranking_witness :
    add_priorities [] = ([] : List (WSJFItem × Nat)) :=
  (add_priorities_stable_ranking []).2.2.2.2 rfl

/-- C4: the job-size validator only lets through members of
1,2,3,5,8,13,21, all non-zero; consequently every successfully
constructed item has a Fibonacci, non-zero `job_size`, and the division
in the `wsjf_score` computation never divides by zero. -/
theorem validated_job_size_fibonacci_nonzero :
    (∀ v w : Int, validate_job_size_fibonacci v = .ok w →
      w ∈ FIBONACCI_VALUES ∧ w ≠ 0) ∧
    (∀ id subject description bv tc rr job_size status owner team pi cd item,
      mkWSJFItem id subject description bv tc rr job_size status owner team pi cd =
        .ok item →
      item.job_size ∈ FIBONACCI_VALUES ∧ item.job_size ≠ 0) := by
  constructor
  · intro v w h
    by_cases hv : v ∈ FIBONACCI_VALUES
    · rw [validate_job_size_fibonacci, if_pos hv] at h
      injection h with h'
      subst h'
      exact ⟨hv, by have := fib_values_bounds v hv; omega⟩
    · rw [validate_job_size_fibonacci, if_neg hv] at h
      exact Except.noConfusion h
  · intro id subject description bv tc rr job_size status owner team pi cd item h
    obtain ⟨heq, _, _, _, _, _, _, hjs⟩ := mkWSJFItem_ok_inversion h
    subst heq
    exact ⟨hjs, show job_size ≠ 0 by have := fib_values_bounds job_size hjs; omega⟩


/-- Witness for C4: job size 5 passes the validator and is non-zero, and
the concrete sample item constructed through `mkWSJFItem` has a
Fibonacci, non-zero job size. -/
theorem validated_job_size_fibonacci_nonzero_witness :
    ((5 : Int) ∈ FIBONACCI_VALUES ∧ (5 : Int) ≠ 0) ∧
    (sampleItem.job_size ∈ FIBONACCI_VALUES ∧ sampleItem.job_size ≠ 0) :=
  ⟨validated_job_size_fibonacci_nonzero.1 5 5 rfl,
   validated_job_size_fibonacci_nonzero.2 "id-1" "Item" "" aggBusiness5 aggTime5
     aggRisk3 2 .new none none "pi-1" 0 sampleItem rfl⟩

/-- C6: `update_item` overwrites exactly the fields present in the patch:
every omitted field retains its prior value, every provided field takes
the provided value (with "omitted" distinct from "explicitly null" for
the nullable owner and team fields), the identity fields are never
touched, and the empty patch leaves the item entirely unchanged. -/
theorem apply_update_frame (item : WSJFItem) (patch : WSJFItemUpdate) :
    (patch.subject = none → (apply_update item patch).subject = item.subject) ∧
    (∀ v, patch.subject = some v → (apply_update item patch).subject = v) ∧
    (patch.description = none → (apply_update item patch).description = item.description) ∧
    (∀ v, patch.description = some v → (apply_update item patch).description = v) ∧
    (patch.business_value = none →
      (apply_update item patch).business_value = item.business_value) ∧
    (∀ v, patch.business_value = some v → (apply_update item patch).business_value = v) ∧
    (patch.time_criticality = none →
      (apply_update item patch).time_criticality = item.time_criticality) ∧
    (∀ v, patch.time_criticality = some v →
      (apply_update item patch).time_criticality = v) ∧
    (patch.risk_reduction = none →
      (apply_update item patch).risk_reduction = item.risk_reduction) ∧
    (∀ v, patch.risk_reduction = some v → (apply_update item patch).risk_reduction = v) ∧
    (patch.job_size = none → (apply_update item patch).job_size = item.job_size) ∧
    (∀ v, patch.job_size = some v → (apply_update item patch).job_size = v) ∧
    (patch.status = none → (apply_update item patch).status = item.status) ∧
    (∀ v, patch.status = some v → (apply_update item patch).status = v) ∧
    (patch.owner = none → (apply_update item patch).owner = item.owner) ∧
    (∀ v, patch.owner = some v → (apply_update item patch).owner = v) ∧
    (patch.team = none → (apply_update item patch).team = item.team) ∧
    (∀ v, patch.team = some v → (apply_update item patch).team = v) ∧
    (patch.program_increment_id = none →
      (apply_update item patch).program_increment_id = item.program_increment_id) ∧
    (∀ v, patch.program_increment_id = some v →
      (apply_update item patch).program_increment_id = v) ∧
    (apply_update item patch).id = item.id ∧
    (apply_update item patch).created_date = item.created_date ∧
    (patch = WSJFItemUpdate.empty → apply_update item patch = item) := by
  refine ⟨fun h => by simp [apply_update, h], fun v h => by simp [apply_update, h],
    fun h => by simp [apply_update, h], fun v h => by simp [apply_update, h],
    fun h => by simp [apply_update, h], fun v h => by simp [apply_update, h],
    fun h => by simp [apply_update, h], fun v h => by simp [apply_update, h],
    fun h => by simp [apply_update, h], fun v h => by simp [apply_update, h],
    fun h => by simp [apply_update, h], fun v h => by simp [apply_update, h],
    fun h => by simp [apply_update, h], fun v h => by simp [apply_update, h],
    fun h => by simp [apply_update, h], fun v h => by simp [apply_update, h],
    fun h => by simp [apply_update, h], fun v h => by simp [apply_update, h],
    fun h => by simp [apply_update, h], fun v h => by simp [apply_update, h],
    rfl, rfl, fun h => by subst h; rfl⟩

/-- A concrete patch for the C6 witness: rename the subject, clear the
owner explicitly, leave everything else unset. -/
def samplePatch : WSJFItemUpdate :=
  { subject := some "Renamed", owner := some none }

/-- Witness for C6: on the sample item, the patch that provides only
subject and an explicit null owner changes exactly those two fields, and
the empty patch changes nothing. -/
theorem apply_update_frame_witness :
    (apply_update sampleItem samplePatch).team = sampleItem.team ∧
    (apply_update sampleItem samplePatch).subject = "Renamed" ∧
    (apply_update sampleItem samplePatch).owner = none ∧
    (apply_update sampleItem samplePatch).job_size = sampleItem.job_size ∧
    apply_update sampleItem WSJFItemUpdate.empty = sampleItem :=
  ⟨(apply_update_frame sampleItem samplePatch).2.2.2.2.2.2.2.2.2.2.2.2.2.2.2.2.1 rfl,
   (apply_update_frame sampleItem samplePatch).2.1 "Renamed" rfl,
   (apply_update_frame sampleItem samplePatch).2.2.2.2.2.2.2.2.2.2.2.2.2.2.2.1 none rfl,
   (apply_update_frame sampleItem samplePatch).2.2.2.2.2.2.2.2.2.2.1 rfl,
   (apply_update_frame sampleItem WSJFItemUpdate.empty).2.2.2.2.2.2.2.2.2.2.2.2.2.2.2.2.2.2.2.2.2.2 rfl⟩

/-- C9: every successfully constructed item has at least one sub-value
present in each of the three numerator aggregates (construction fails
when any of them has none), each of their maxima is at least 1, and the
item's `wsjf_score` is strictly positive. -/
theorem validated_item_positive_score :
    (∀ id subject description bv tc rr job_size status owner team pi cd item,
      mkWSJFItem id subject description bv tc rr job_size status owner team pi cd =
        .ok item →
      1 ≤ item.business_value.calculate_max_value ∧
      1 ≤ item.time_criticality.calculate_max_value ∧
      1 ≤ item.risk_reduction.calculate_max_value ∧
      0 < item.wsjf_score) ∧
    (∀ id subject description bv tc rr job_size status owner team pi cd,
      (bv.presentValues = [] ∨ tc.presentValues = [] ∨ rr.presentValues = []) →
      ∀ item,
        mkWSJFItem id subject description bv tc rr job_size status owner team pi cd ≠
          .ok item) := by
  constructor
  · intro id subject description bv tc rr job_size status owner team pi cd item h
    obtain ⟨heq, hbvF, hbvN, htcF, htcN, hrrF, hrrN, hjs⟩ := mkWSJFItem_ok_inversion h
    subst heq
    have hb := one_le_max_of_allFibonacci hbvF hbvN
    have ht := one_le_max_of_allFibonacci htcF htcN
    have hr := one_le_max_of_allFibonacci hrrF hrrN
    refine ⟨hb, ht, hr, ?_⟩
    have hjsb := fib_values_bounds job_size hjs
    have key : (1:ℚ)/7 ≤
        ((bv.calculate_max_value + tc.calculate_max_value +
          rr.calculate_max_value : Int) : ℚ) / (job_size : ℚ) := by
      have hjs1 : (1:ℚ) ≤ (job_size:ℚ) := by exact_mod_cast hjsb.1
      have hjs21 : (job_size:ℚ) ≤ 21 := by exact_mod_cast hjsb.2
      have hsum : (3:ℚ) ≤ ((bv.calculate_max_value + tc.calculate_max_value +
          rr.calculate_max_value : Int) : ℚ) := by
        have h3 : (3:Int) ≤ bv.calculate_max_value + tc.calculate_max_value +
            rr.calculate_max_value := by omega
        exact_mod_cast h3
      rw [div_le_div_iff₀ (by norm_num) (by linarith)]
      linarith
    show 0 < round2 (((bv.calculate_max_value + tc.calculate_max_value +
      rr.calculate_max_value : Int) : ℚ) / (job_size : ℚ))
    exact round2_pos_of_one_seventh_le key
  · intro id subject description bv tc rr job_size status owner team pi cd hdisj item h
    obtain ⟨_, _, hbvN, _, htcN, _, hrrN, _⟩ := mkWSJFItem_ok_inversion h
    rcases hdisj with h0 | h0 | h0
    · exact hbvN (calculate_max_value_of_nil h0)
    · exact htcN (calculate_max_value_of_nil h0)
    · exact hrrN (calculate_max_value_of_nil h0)

/-- Witness for C9: the sample item built through `mkWSJFItem` has all
three maxima at least 1 and a positive score, and construction with an
empty business-value aggregate cannot return the sample item. -/
theorem validated_item_positive_score_witness :
    (1 ≤ sampleItem.business_value.calculate_max_value ∧
     1 ≤ sampleItem.time_criticality.calculate_max_value ∧
     1 ≤ sampleItem.risk_reduction.calculate_max_value ∧
     0 < sampleItem.wsjf_score) ∧
    mkWSJFItem "id-1" "Item" "" aggEmpty aggTime5 aggRisk3 2 .new none none "pi-1" 0 ≠
      .ok sampleItem :=
  ⟨validated_item_positive_score.1 "id-1" "Item" "" aggBusiness5 aggTime5 aggRisk3 2
      .new none none "pi-1" 0 sampleItem rfl,
   validated_item_positive_score.2 "id-1" "Item" "" aggEmpty aggTime5 aggRisk3 2
      .new none none "pi-1" 0 (Or.inl rfl) sampleItem⟩

lemma map_pair_fst (L : List String) (f : String → Nat) :
    (L.map fun s => (s, f s)).map Prod.fst = L := by
  rw [List.map_map]
  have h : (Prod.fst ∘ fun s => (s, f s)) = id := rfl
  rw [h, List.map_id]

lemma mem_map_pair {L : List String} {f : String → Nat} {s : String} {k : Nat}
    (h : (s, k) ∈ L.map fun x => (x, f x)) : k = f s := by
  rw [List.mem_map] at h
  obtain ⟨x, _, heq⟩ := h
  injection heq with h1 h2
  subst h1
  exact h2.symm

/-- Rows and items for the C5 counterexample: two items of the same PI
whose stored factor columns agree with the items' aggregate maxima. -/
def exRow1 : WsjfItemRow := ⟨1, 1, 1, 8, "New", none⟩

def exRow2 : WsjfItemRow := ⟨1, 1, 5, 8, "New", none⟩

def aggOne : WSJFSubValues := { pms_business := some 1 }

def aggFive : WSJFSubValues := { dev_business := some 5 }

def exItem1 : WSJFItem :=
  ⟨"i1", "A", "", aggOne, aggOne, aggOne, 8, .new, none, none, "pi", 0⟩

def exItem2 : WSJFItem :=
  ⟨"i2", "B", "", aggOne, aggOne, aggFive, 8, .new, none, none, "pi", 0⟩

/-- C5 counterexample: for a PI owning these two concrete items — whose
stored scalar factor columns equal the items' aggregate maxima — the
stats operation returns avg_wsjf_score 0.62 (it rounds the mean of the
unrounded raw ratios 3/8 and 7/8, so round2(0.625) ties to even), while
the mean of the items' wsjf_score values (0.38 and 0.88) rounded to 2
decimals is 0.63.  So avg_wsjf_score is not the (rounded) mean of the
items' wsjf_score values, refuting that part of the claim. -/
theorem pi_stats_avg_ne_mean_of_item_scores :
    (exRow1.business_value = (exItem1.business_value.calculate_max_value : ℚ) ∧
     exRow1.time_criticality = (exItem1.time_criticality.calculate_max_value : ℚ) ∧
     exRow1.risk_reduction = (exItem1.risk_reduction.calculate_max_value : ℚ) ∧
     exRow1.job_size = (exItem1.job_size : ℚ) ∧
     exRow2.business_value = (exItem2.business_value.calculate_max_value : ℚ) ∧
     exRow2.time_criticality = (exItem2.time_criticality.calculate_max_value : ℚ) ∧
     exRow2.risk_reduction = (exItem2.risk_reduction.calculate_max_value : ℚ) ∧
     exRow2.job_size = (exItem2.job_size : ℚ)) ∧
    (get_pi_stats [exRow1, exRow2]).total_items = 2 ∧
    exItem1.wsjf_score = 38/100 ∧
    exItem2.wsjf_score = 88/100 ∧
    specAvgScore [exItem1, exItem2] = 63/100 ∧
    (get_pi_stats [exRow1, exRow2]).avg_wsjf_score = 62/100 ∧
    (get_pi_stats [exRow1, exRow2]).avg_wsjf_score ≠ specAvgScore [exItem1, exItem2] := by
  have hm1 : aggOne.calculate_max_value = 1 := by decide
  have hm5 : aggFive.calculate_max_value = 5 := by decide
  have hs1 : exItem1.wsjf_score = 38/100 := by
    show round2 (((aggOne.calculate_max_value + aggOne.calculate_max_value +
      aggOne.calculate_max_value : Int) : ℚ) / ((8 : Int) : ℚ)) = 38/100
    rw [hm1]
    norm_num [round2, pyRoundHalfEven]
  have hs2 : exItem2.wsjf_score = 88/100 := by
    show round2 (((aggOne.calculate_max_value + aggOne.calculate_max_value +
      aggFive.calculate_max_value : Int) : ℚ) / ((8 : Int) : ℚ)) = 88/100
    rw [hm1, hm5]
    norm_num [round2, pyRoundHalfEven]
  have hspec : specAvgScore [exItem1, exItem2] = 63/100 := by
    rw [specAvgScore]
    simp only [List.map_cons, List.map_nil, List.sum_cons, List.sum_nil,
      List.length_cons, List.length_nil]
    rw [hs1, hs2]
    norm_num [round2, pyRoundHalfEven]
  have hcode : (get_pi_stats [exRow1, exRow2]).avg_wsjf_score = 62/100 := by
    norm_num [get_pi_stats, exRow1, exRow2, rowRatio, round2, pyRoundHalfEven]
  refine ⟨⟨?_, ?_, ?_, ?_, ?_, ?_, ?_, ?_⟩, rfl, hs1, hs2, hspec, hcode, ?_⟩
  · show (1:ℚ) = ((aggOne.calculate_max_value : Int) : ℚ)
    rw [hm1]; norm_num
  · show (1:ℚ) = ((aggOne.calculate_max_value : Int) : ℚ)
    rw [hm1]; norm_num
  · show (1:ℚ) = ((aggOne.calculate_max_value : Int) : ℚ)
    rw [hm1]; norm_num
  · show (8:ℚ) = ((8 : Int) : ℚ)
    norm_num
  · show (1:ℚ) = ((aggOne.calculate_max_value : Int) : ℚ)
    rw [hm1]; norm_num
  · show (1:ℚ) = ((aggOne.calculate_max_value : Int) : ℚ)
    rw [hm1]; norm_num
  · show (5:ℚ) = ((aggFive.calculate_max_value : Int) : ℚ)
    rw [hm5]; norm_num
  · show (8:ℚ) = ((8 : Int) : ℚ)
    norm_num
  · rw [hcode, hspec]
    norm_num

/-- C5 (amended): the stats operation returns total_items equal to the
number of items of the PI; a PI with zero items yields avg 0.0 and empty
distributions rather than an error; for a non-empty PI (whose mean raw
ratio is non-zero) avg_wsjf_score is the mean of the unrounded stored
raw-column ratios rounded once to 2 decimals (not the mean of the
per-item rounded wsjf_score values); the status distribution counts
exactly the statuses present; and the team distribution counts per team
label with items lacking a team in the "Unassigned" bucket. -/
theorem pi_stats_characterization (rows : List WsjfItemRow) :
    (get_pi_stats rows).total_items = rows.length ∧
    (rows = [] → (get_pi_stats rows).avg_wsjf_score = 0 ∧
      (get_pi_stats rows).status_distribution = [] ∧
      (get_pi_stats rows).team_distribution = []) ∧
    (rows ≠ [] → (rows.map rowRatio).sum / (rows.length : ℚ) ≠ 0 →
      (get_pi_stats rows).avg_wsjf_score =
        round2 ((rows.map rowRatio).sum / (rows.length : ℚ))) ∧
    (∀ s, s ∈ (get_pi_stats rows).status_distribution.map Prod.fst ↔
      s ∈ rows.map (·.status)) ∧
    (∀ s k, (s, k) ∈ (get_pi_stats rows).status_distribution →
      k = (rows.filter fun r => decide (r.status = s)).length) ∧
    (∀ t, t ∈ (get_pi_stats rows).team_distribution.map Prod.fst ↔
      t ∈ rows.map rowTeamLabel) ∧
    (∀ t k, (t, k) ∈ (get_pi_stats rows).team_distribution →
      k = (rows.filter fun r => decide (rowTeamLabel r = t)).length) := by
  refine ⟨rfl, ?_, ?_, ?_, ?_, ?_, ?_⟩
  · rintro rfl
    exact ⟨rfl, rfl, rfl⟩
  · intro hne hz
    have hE : rows.isEmpty = false := by
      cases rows with
      | nil => exact absurd rfl hne
      | cons a l => rfl
    simp only [get_pi_stats, hE, Bool.false_eq_true, if_false]
    rw [if_neg hz]
  · intro s
    simp only [get_pi_stats]
    rw [map_pair_fst]
    exact List.mem_dedup
  · intro s k hk
    simp only [get_pi_stats] at hk
    exact mem_map_pair hk
  · intro t
    simp only [get_pi_stats]
    rw [map_pair_fst]
    exact List.mem_dedup
  · intro t k hk
    simp only [get_pi_stats] at hk
    exact mem_map_pair hk

/-- Witness for C5 (amended): on the two concrete rows, the code's avg is
the rounded mean of the raw ratios; on the empty row set, the stats are
all zero/empty. -/
theorem pi_stats_characterization_witness :
    (get_pi_stats [exRow1, exRow2]).avg_wsjf_score =
      round2 ((([exRow1, exRow2].map rowRatio).sum) / (([exRow1, exRow2].length : Nat) : ℚ)) ∧
    ((get_pi_stats []).avg_wsjf_score = 0 ∧
     (get_pi_stats []).status_distribution = [] ∧
     (get_pi_stats []).team_distribution = []) :=
  ⟨(pi_stats_characterization [exRow1, exRow2]).2.2.1 (by decide)
      (by norm_num [rowRatio, exRow1, exRow2]),
   (pi_stats_characterization []).2.1 rfl⟩

end BsdWsjf
